import Mathlib

/-!
Shallow embedding of the `guessing_game` crate (BenjaminBrienen/guessing_game).

The repository is a console number-guessing game consisting of
  * `src/lib.rs`: the bounded-value type `Guess<const RANGE: RangeInclusive<i32>>`
    with its validating constructor `Guess::new`, the blocking `input` loop
    (read / trim / parse / validate until success), and the `respond`
    three-way-comparison step returning `ControlFlow`;
  * `src/main.rs`: the driver with compiled-in constants
    `GUESS_RANGE = 0..=1024` and `ATTEMPTS_ALLOWED = 10`.

Modelling decisions (all values are translated from the source):
  * `i32` is modelled as `Int`; the only arithmetic the program performs on it
    is comparison, which cannot overflow, so no wraparound modelling is needed.
    `str::parse::<i32>` does perform the `i32` range check, which is modelled
    explicitly with `i32Min` / `i32Max`.
  * I/O is modelled by explicit traces: an `IOEnv` records, for each iteration
    of the input loop, whether `output.flush()` succeeds, what
    `read_to_string` produces, and whether the error-message `write_all`
    succeeds.  Loops carry a fuel parameter; running out of fuel is a distinct
    outcome and theorems quantify over sufficient fuel.
  * The `colored` crate only wraps a string with an ANSI color/style; it is
    modelled as a `ColoredString` structure carrying the text and the color.
    The ANSI escape bytes themselves are abstracted away: no claim depends on
    them, only on the text content of the messages.
  * A Rust panic (`.expect(...)`) is modelled as a distinguished `panic`
    outcome (for the input loop) or an `Except.error` (for `respond`).
-/

namespace GuessingGame

/-- Smallest value of the Rust type `i32`. -/
def i32Min : Int := -(2 ^ 31)

/-- Largest value of the Rust type `i32`. -/
def i32Max : Int := 2 ^ 31 - 1

/-- `std::ops::RangeInclusive<i32>`: an inclusive range given by its two
endpoints (`start()` and `end()`; `end` is a Lean keyword, hence `end_`). -/
structure RangeInclusive where
  start : Int
  end_ : Int
deriving DecidableEq

/-- `RangeInclusive::contains`: for an inclusive range,
`self.start() <= item && item <= self.end()`. -/
def RangeInclusive.contains (r : RangeInclusive) (v : Int) : Bool :=
  decide (r.start ≤ v) && decide (v ≤ r.end_)

/-- The struct `Guess<const RANGE: RangeInclusive<i32>>` from `src/lib.rs`
(lines 150-154): a tuple-like struct holding one `i32` field `value`.
The const generic parameter becomes an ordinary Lean parameter. -/
structure Guess (RANGE : RangeInclusive) where
  value : Int
deriving DecidableEq

/-- `Ord::cmp` on `i32`: plain integer three-way comparison. -/
def i32Compare (a b : Int) : Ordering :=
  if a < b then .lt else if a = b then .eq else .gt

/-- The `#[derive(Ord)]` comparison on `Guess`: the struct has a single field
`value`, so derived `cmp` compares the `value` fields. -/
def Guess.cmp {RANGE : RangeInclusive} (a b : Guess RANGE) : Ordering :=
  i32Compare a.value b.value

/-- `Guess::new` (`src/lib.rs` lines 176-186): returns `Ok(Guess { value: guess })`
when `RANGE.contains(&guess)`, and `Err(guess)` otherwise. -/
def Guess.new (RANGE : RangeInclusive) (guess : Int) : Except Int (Guess RANGE) :=
  if RANGE.contains guess then .ok ⟨guess⟩ else .error guess

end GuessingGame

deriving instance DecidableEq for Except

namespace GuessingGame

/-- `str::trim`: remove leading and trailing whitespace.  Implemented
structurally over the character list so that it evaluates by reduction
(`Char.isWhitespace` covers the ASCII whitespace characters; Rust trims by
Unicode `White_Space`, which agrees on all inputs the claims mention). -/
def strTrim (s : String) : String :=
  ⟨((s.data.dropWhile Char.isWhitespace).reverse.dropWhile Char.isWhitespace).reverse⟩

end GuessingGame

namespace GuessingGame

/-- The colors used via the `colored` crate. -/
inductive Color
  | normal
  | red
  | yellow
  | green
  | magenta
  | cyan
deriving DecidableEq

/-- `colored::ColoredString`: a string together with its styling.  The ANSI
escape bytes produced on output are abstracted; only text and style are kept. -/
structure ColoredString where
  text : String
  color : Color
  isBold : Bool
deriving DecidableEq

/-- `Colorize::red`. -/
def red (s : String) : ColoredString := ⟨s, .red, false⟩

/-- `Colorize::yellow`. -/
def yellow (s : String) : ColoredString := ⟨s, .yellow, false⟩

/-- `Colorize::green`. -/
def green (s : String) : ColoredString := ⟨s, .green, false⟩

/-- `Colorize::magenta`. -/
def magenta (s : String) : ColoredString := ⟨s, .magenta, false⟩

/-- `Colorize::cyan`. -/
def cyan (s : String) : ColoredString := ⟨s, .cyan, false⟩

/-- `Colorize::clear`. -/
def clear (s : String) : ColoredString := ⟨s, .normal, false⟩

/-- `ColoredString::bold`. -/
def ColoredString.bold (c : ColoredString) : ColoredString := ⟨c.text, c.color, true⟩

/-- Numeric value of a list of ASCII digit characters, most significant first. -/
def digitsToNat (cs : List Char) : Nat :=
  cs.foldl (fun a c => a * 10 + (c.toNat - Char.toNat '0')) 0

/-- `str::parse::<i32>`: an optional sign `+`/`-` followed by one or more ASCII
digits, nothing else; the resulting value must fit in `i32`, otherwise the
parse fails (overflow is an error, not wraparound). -/
def parseI32 (s : String) : Option Int :=
  let cs := s.data
  let signDigits : Int × List Char :=
    match cs with
    | '+' :: rest => (1, rest)
    | '-' :: rest => (-1, rest)
    | _ => (1, cs)
  let sign := signDigits.1
  let digits := signDigits.2
  if digits.isEmpty then none
  else if digits.all Char.isDigit then
    let v : Int := sign * (digitsToNat digits : Int)
    if i32Min ≤ v ∧ v ≤ i32Max then some v else none
  else none

/-- Result of one `input.read_to_string(&mut guess_input)` call of the input
loop: either the text read (possibly empty at end of input), or an I/O error. -/
inductive ReadResult
  | ok (s : String)
  | err
deriving DecidableEq

/-- The I/O environment seen by one call to `input`: for iteration `n` of its
loop, whether `output.flush()` succeeds, what `read_to_string` yields, and
whether the `output.write_all` of the error message succeeds. -/
structure IOEnv where
  flushOk : Nat → Bool
  readResult : Nat → ReadResult
  errWriteOk : Nat → Bool

/-- The chained happy path of one iteration of the `input` loop
(`src/lib.rs` lines 69-79): `output.flush()` succeeds, `read_to_string`
succeeds, `guess_input.trim().parse::<i32>()` succeeds, and
`Guess::new(parsed)` succeeds; `some g` exactly when all four steps succeed
(the `let`-chain), `none` when any step fails (the `else` branch is taken). -/
def attemptResult (RANGE : RangeInclusive) (env : IOEnv) (n : Nat) : Option (Guess RANGE) :=
  if env.flushOk n then
    match env.readResult n with
    | .ok s =>
      match parseI32 (strTrim s) with
      | some parsed =>
        match Guess.new RANGE parsed with
        | .ok g => some g
        | .error _ => none
      | none => none
    | .err => none
  else none

/-- The error message written by the `else` branch of the input loop
(`src/lib.rs` lines 83-86), coloring abstracted:
`"\n{red("Invalid guess. 🤕")}\n{yellow("Guesses must be an integer from {lo} through {hi}.")}"`. -/
def errorMessage (RANGE : RangeInclusive) : String :=
  "\n" ++ "Invalid guess. 🤕" ++ "\n" ++
    "Guesses must be an integer from " ++ toString RANGE.start ++ " through "
      ++ toString RANGE.end_ ++ "."

/-- One observable write of the input loop: the `print!("{}", prompt)` at the
top of each iteration, or the `write_all` of the error message. -/
inductive OutputEvent
  | promptWrite (p : ColoredString)
  | errorWrite (msg : String)
deriving DecidableEq

/-- Outcome of one call to `input`: a validated guess returned after
`failedAttempts` invalid iterations, a panic (the error-message `write_all`
failed and `.expect("Error erroring...")` aborted), or fuel exhaustion (the
real loop would still be running). -/
inductive InputOutcome (RANGE : RangeInclusive)
  | ok (g : Guess RANGE) (failedAttempts : Nat)
  | panic
  | outOfFuel
deriving DecidableEq

/-- The `loop` body of `input` (`src/lib.rs` lines 64-88), starting at
iteration `n` with `fuel` iterations of budget.  Each iteration prints the
prompt, runs the chained attempt, and on failure writes the error message
(panicking if that write fails) and repeats.  Also returns the trace of
writes performed. -/
def inputGo (RANGE : RangeInclusive) (prompt : ColoredString) (env : IOEnv) :
    Nat → Nat → InputOutcome RANGE × List OutputEvent
  | 0, _ => (.outOfFuel, [])
  | fuel + 1, n =>
    match attemptResult RANGE env n with
    | some g => (.ok g n, [.promptWrite prompt])
    | none =>
      if env.errWriteOk n then
        let rest := inputGo RANGE prompt env fuel (n + 1)
        (rest.1, .promptWrite prompt :: .errorWrite (errorMessage RANGE) :: rest.2)
      else
        (.panic, [.promptWrite prompt])

/-- `input` (`src/lib.rs` lines 57-89): run the loop from its first
iteration. -/
def input (RANGE : RangeInclusive) (prompt : ColoredString) (env : IOEnv)
    (fuel : Nat) : InputOutcome RANGE × List OutputEvent :=
  inputGo RANGE prompt env fuel 0

/-- `std::ops::ControlFlow<()>`. -/
inductive ControlFlow
  | Break
  | Continue
deriving DecidableEq

/-- The message written by `respond` (`src/lib.rs` lines 122-131): selected by
`guess.cmp(&correct)`.  The three message strings are plain string literals in
the source (not `format!` templates), so the characters `\x7bguess\x7d` appear
literally in the first two. -/
def respondMessage {RANGE : RangeInclusive} (guess correct : Guess RANGE) : ColoredString :=
  match Guess.cmp guess correct with
  | .gt => magenta "\n\x7bguess\x7d is too high! 🥵"
  | .lt => cyan "\n\x7bguess\x7d is too low! 🥶"
  | .eq => (green "\nYou win! 😊🏖").bold

/-- The return value of `respond` (`src/lib.rs` lines 132-139):
`Break(())` when `correct.cmp(&guess)` is `Equal`, `Continue(())` otherwise. -/
def respondFlow {RANGE : RangeInclusive} (guess correct : Guess RANGE) : ControlFlow :=
  match Guess.cmp correct guess with
  | .eq => .Break
  | _ => .Continue

/-- `respond` (`src/lib.rs` lines 116-140) including its effect on the output
sink: it first does `output.write_all(message).expect("Error outputting
response.")` — modelled by `writeOk`; a failed write panics — and then
computes the control flow. -/
def respond {RANGE : RangeInclusive} (guess correct : Guess RANGE) (writeOk : Bool) :
    Except String (ColoredString × ControlFlow) :=
  if writeOk then .ok (respondMessage guess correct, respondFlow guess correct)
  else .error "Error outputting response."

/-- `GUESS_RANGE` (`src/main.rs` line 22): `0_i32..=1024_i32`. -/
def GUESS_RANGE : RangeInclusive := ⟨0, 1024⟩

/-- `ATTEMPTS_ALLOWED` (`src/main.rs` line 25): `10_i32`. -/
def ATTEMPTS_ALLOWED : Int := 10

/-- Result of the driver loop of `main` (`src/main.rs` lines 27-56):
either the player won (the `return` inside the `for` was taken) after
`cyclesUsed` input/respond cycles, or the loop ran to completion after
`cyclesUsed` cycles and the loss message
`"\nYou\x27re out of guesses! Game over. 😢\n\n"` was printed. -/
inductive GameResult
  | won (cyclesUsed : Nat)
  | lost (cyclesUsed : Nat)
deriving DecidableEq

/-- The `for i in (1..=ATTEMPTS_ALLOWED).rev()` loop of `main`: at each
iteration the input loop produces one validated guess (`guesses k` is the
guess of the `k`-th cycle, 0-based) and `respond` classifies it; `Break` ends
the game as a win.  Writes to stdout are assumed to succeed in the driver. -/
def mainLoop (correct : Guess GUESS_RANGE) (guesses : Nat → Guess GUESS_RANGE) :
    Nat → Nat → GameResult
  | 0, k => .lost k
  | fuel + 1, k =>
    match respondFlow (guesses k) correct with
    | .Break => .won (k + 1)
    | .Continue => mainLoop correct guesses fuel (k + 1)

/-- `main`'s game loop with the compiled-in attempt budget. -/
def mainGame (correct : Guess GUESS_RANGE) (guesses : Nat → Guess GUESS_RANGE) :
    GameResult :=
  mainLoop correct guesses ATTEMPTS_ALLOWED.toNat 0

/-! ## Helper lemmas -/

theorem contains_iff (r : RangeInclusive) (v : Int) :
    r.contains v = true ↔ (r.start ≤ v ∧ v ≤ r.end_) := by
  simp [RangeInclusive.contains]

theorem new_ok_of_in_range (R : RangeInclusive) (v : Int)
    (h : R.start ≤ v ∧ v ≤ R.end_) : Guess.new R v = .ok ⟨v⟩ := by
  simp [Guess.new, (contains_iff R v).2 h]

theorem new_error_of_out_of_range (R : RangeInclusive) (v : Int)
    (h : ¬(R.start ≤ v ∧ v ≤ R.end_)) : Guess.new R v = .error v := by
  have hc : R.contains v = false := by
    rcases hb : R.contains v with _ | _
    · rfl
    · exact absurd ((contains_iff R v).1 hb) h
  simp [Guess.new, hc]

theorem new_ok_inv (R : RangeInclusive) (v : Int) (g : Guess R)
    (h : Guess.new R v = .ok g) :
    g.value = v ∧ R.start ≤ v ∧ v ≤ R.end_ := by
  unfold Guess.new at h
  split at h
  · next hc =>
    injection h with h
    exact ⟨by rw [← h], (contains_iff R v).1 hc⟩
  · exact absurd h (by simp)

theorem i32Compare_eq_lt (a b : Int) : i32Compare a b = .lt ↔ a < b := by
  unfold i32Compare
  split
  · simp [*]
  · split <;> simp <;> omega

theorem i32Compare_eq_eq (a b : Int) : i32Compare a b = .eq ↔ a = b := by
  unfold i32Compare
  split
  · simp; omega
  · split <;> simp [*]

theorem i32Compare_eq_gt (a b : Int) : i32Compare a b = .gt ↔ b < a := by
  unfold i32Compare
  split
  · simp; omega
  · split
    · simp; omega
    · simp; omega

theorem respondFlow_break_iff {R : RangeInclusive} (g c : Guess R) :
    respondFlow g c = .Break ↔ g.value = c.value := by
  unfold respondFlow Guess.cmp
  rcases h : i32Compare c.value g.value with _ | _ | _ <;> simp
  · rw [i32Compare_eq_lt] at h; omega
  · rw [i32Compare_eq_eq] at h; omega
  · rw [i32Compare_eq_gt] at h; omega

theorem respondMessage_of_gt {R : RangeInclusive} (g c : Guess R)
    (h : c.value < g.value) :
    respondMessage g c = magenta "\n\x7bguess\x7d is too high! 🥵" := by
  unfold respondMessage Guess.cmp
  rw [(i32Compare_eq_gt g.value c.value).2 h]

theorem respondMessage_of_lt {R : RangeInclusive} (g c : Guess R)
    (h : g.value < c.value) :
    respondMessage g c = cyan "\n\x7bguess\x7d is too low! 🥶" := by
  unfold respondMessage Guess.cmp
  rw [(i32Compare_eq_lt g.value c.value).2 h]

theorem respondMessage_of_eq {R : RangeInclusive} (g c : Guess R)
    (h : g.value = c.value) :
    respondMessage g c = (green "\nYou win! 😊🏖").bold := by
  unfold respondMessage Guess.cmp
  rw [(i32Compare_eq_eq g.value c.value).2 h]

/-- The happy path of one iteration succeeds exactly when the whole
`let`-chain does; this spells out `attemptResult` as the chain. -/
theorem attemptResult_eq_some_iff (R : RangeInclusive) (env : IOEnv) (n : Nat)
    (g : Guess R) :
    attemptResult R env n = some g ↔
      env.flushOk n = true ∧
      ∃ s v, env.readResult n = .ok s ∧ parseI32 (strTrim s) = some v ∧
        Guess.new R v = .ok g := by
  constructor
  · intro h
    unfold attemptResult at h
    split at h
    · next hf =>
      refine ⟨hf, ?_⟩
      split at h
      · next s hr =>
        split at h
        · next v hp =>
          split at h
          · next g0 hn =>
            injection h with h
            subst h
            exact ⟨s, v, hr, hp, hn⟩
          · exact absurd h (by simp)
        · exact absurd h (by simp)
      · exact absurd h (by simp)
    · exact absurd h (by simp)
  · rintro ⟨hf, s, v, hr, hp, hn⟩
    unfold attemptResult
    simp [hf, hr, hp, hn]

theorem attemptResult_some_inv (R : RangeInclusive) (env : IOEnv) (n : Nat)
    (g : Guess R) (h : attemptResult R env n = some g) :
    R.start ≤ g.value ∧ g.value ≤ R.end_ := by
  obtain ⟨-, s, v, -, -, hn⟩ := (attemptResult_eq_some_iff R env n g).1 h
  obtain ⟨hval, hlo, hhi⟩ := new_ok_inv R v g hn
  rw [hval]
  exact ⟨hlo, hhi⟩

/-- Running the input loop from iteration `n`: if the first `k` attempts fail,
their error writes succeed, and attempt `n + k` succeeds, the loop returns
exactly the guess of attempt `n + k`, having written one prompt and one error
message per failed attempt and one final prompt. -/
theorem inputGo_run (R : RangeInclusive) (p : ColoredString) (env : IOEnv) :
    ∀ (k fuel n : Nat) (g : Guess R),
      (∀ m, m < k → attemptResult R env (n + m) = none) →
      (∀ m, m < k → env.errWriteOk (n + m) = true) →
      attemptResult R env (n + k) = some g → k < fuel →
      inputGo R p env fuel n =
        (.ok g (n + k),
         List.flatten (List.replicate k
           [.promptWrite p, .errorWrite (errorMessage R)]) ++ [.promptWrite p]) := by
  intro k
  induction k with
  | zero =>
    intro fuel n g _ _ hok hfuel
    obtain ⟨f, rfl⟩ : ∃ f, fuel = f + 1 := ⟨fuel - 1, by omega⟩
    rw [Nat.add_zero] at hok
    simp [inputGo, hok]
  | succ k ih =>
    intro fuel n g hfail hwr hok hfuel
    obtain ⟨f, rfl⟩ : ∃ f, fuel = f + 1 := ⟨fuel - 1, by omega⟩
    have h0 : attemptResult R env n = none := by
      have := hfail 0 (by omega)
      rwa [Nat.add_zero] at this
    have hw0 : env.errWriteOk n = true := by
      have := hwr 0 (by omega)
      rwa [Nat.add_zero] at this
    have hrec := ih f (n + 1) g
      (fun m hm => by
        have := hfail (m + 1) (by omega)
        rwa [show n + (m + 1) = n + 1 + m by omega] at this)
      (fun m hm => by
        have := hwr (m + 1) (by omega)
        rwa [show n + (m + 1) = n + 1 + m by omega] at this)
      (by rwa [show n + (k + 1) = n + 1 + k by omega] at hok)
      (by omega)
    have hn1 : n + 1 + k = n + (k + 1) := by omega
    unfold inputGo
    simp only [h0, hw0, if_true, hrec, hn1]
    simp [List.replicate_succ, List.append_assoc]

/-- Any guess returned by the input loop satisfies the range invariant. -/
theorem inputGo_ok_inv (R : RangeInclusive) (p : ColoredString) (env : IOEnv) :
    ∀ (fuel n k : Nat) (g : Guess R),
      (inputGo R p env fuel n).1 = .ok g k →
      R.start ≤ g.value ∧ g.value ≤ R.end_ := by
  intro fuel
  induction fuel with
  | zero =>
    intro n k g h
    simp [inputGo] at h
  | succ fuel ih =>
    intro n k g h
    unfold inputGo at h
    split at h
    · next g0 hA =>
      simp at h
      rcases h with ⟨rfl, rfl⟩
      exact attemptResult_some_inv R env n _ hA
    · split at h
      · exact ih (n + 1) k g (by simpa using h)
      · simp at h

/-- Driver loop, losing run: if every guess inspected differs from the
secret, the loop runs through its whole budget and reports a loss after
`k + fuel` cycles. -/
theorem mainLoop_lost (correct : Guess GUESS_RANGE) (guesses : Nat → Guess GUESS_RANGE) :
    ∀ (fuel k : Nat),
      (∀ m, m < fuel → (guesses (k + m)).value ≠ correct.value) →
      mainLoop correct guesses fuel k = .lost (k + fuel) := by
  intro fuel
  induction fuel with
  | zero => intro k _; simp [mainLoop]
  | succ fuel ih =>
    intro k hne
    have h0 : (guesses k).value ≠ correct.value := by
      have := hne 0 (by omega)
      rwa [Nat.add_zero] at this
    have hflow : respondFlow (guesses k) correct = .Continue := by
      rcases hf : respondFlow (guesses k) correct with _ | _
      · exact absurd ((respondFlow_break_iff _ _).1 hf) h0
      · rfl
    unfold mainLoop
    simp only [hflow]
    rw [ih (k + 1) (fun m hm => by
      have := hne (m + 1) (by omega)
      rwa [show k + (m + 1) = k + 1 + m by omega] at this)]
    rw [show k + 1 + fuel = k + (fuel + 1) by omega]

/-- Driver loop, winning run: if the first `j` guesses differ from the secret
and guess `k + j` equals it, the loop stops at that cycle with a win. -/
theorem mainLoop_won (correct : Guess GUESS_RANGE) (guesses : Nat → Guess GUESS_RANGE) :
    ∀ (j fuel k : Nat),
      (∀ m, m < j → (guesses (k + m)).value ≠ correct.value) →
      (guesses (k + j)).value = correct.value → j < fuel →
      mainLoop correct guesses fuel k = .won (k + j + 1) := by
  intro j
  induction j with
  | zero =>
    intro fuel k _ heq hfuel
    obtain ⟨f, rfl⟩ : ∃ f, fuel = f + 1 := ⟨fuel - 1, by omega⟩
    rw [Nat.add_zero] at heq
    unfold mainLoop
    simp only [(respondFlow_break_iff (guesses k) correct).2 heq]
  | succ j ih =>
    intro fuel k hne heq hfuel
    obtain ⟨f, rfl⟩ : ∃ f, fuel = f + 1 := ⟨fuel - 1, by omega⟩
    have h0 : (guesses k).value ≠ correct.value := by
      have := hne 0 (by omega)
      rwa [Nat.add_zero] at this
    have hflow : respondFlow (guesses k) correct = .Continue := by
      rcases hf : respondFlow (guesses k) correct with _ | _
      · exact absurd ((respondFlow_break_iff _ _).1 hf) h0
      · rfl
    unfold mainLoop
    simp only [hflow]
    rw [ih f (k + 1) (fun m hm => by
        have := hne (m + 1) (by omega)
        rwa [show k + (m + 1) = k + 1 + m by omega] at this)
      (by rwa [show k + (j + 1) = k + 1 + j by omega] at heq)
      (by omega)]
    rw [show k + 1 + j + 1 = k + (j + 1) + 1 by omega]

/-! ## Claim theorems -/

/-- C1: For every integer `v` and every inclusive range `[lo, hi]`,
`Guess::new` returns a successfully constructed instance if and only if
`lo <= v <= hi`, and otherwise returns an error whose payload is the rejected
raw value `v`. -/
theorem guess_new_ok_iff_in_range (R : RangeInclusive) (v : Int) :
    ((R.start ≤ v ∧ v ≤ R.end_) → Guess.new R v = .ok ⟨v⟩) ∧
    ((∃ g : Guess R, Guess.new R v = .ok g) → (R.start ≤ v ∧ v ≤ R.end_)) ∧
    (¬(R.start ≤ v ∧ v ≤ R.end_) → Guess.new R v = .error v) := by
  refine ⟨new_ok_of_in_range R v, ?_, new_error_of_out_of_range R v⟩
  rintro ⟨g, hg⟩
  exact (new_ok_inv R v g hg).2

/-- Witness for C1: range `[0, 10]` with `v = 5` succeeds and range `[10, 20]`
with `v = 0` fails with error payload `0` (spec scenarios 1 and 2). -/
theorem guess_new_ok_iff_in_range_witness :
    Guess.new ⟨0, 10⟩ 5 = .ok ⟨5⟩ ∧ Guess.new ⟨10, 20⟩ 0 = .error 0 :=
  ⟨(guess_new_ok_iff_in_range ⟨0, 10⟩ 5).1 (by decide),
   (guess_new_ok_iff_in_range ⟨10, 20⟩ 0).2.2 (by decide)⟩

/-- C2: For every pair of same-range `Guess` values, `respond` returns `Break`
iff guess equals correct and `Continue` otherwise; the written message is the
"too high" one iff guess > correct, the "too low" one iff guess < correct,
and the win message when they are equal. -/
theorem respond_spec (R : RangeInclusive) (guess correct : Guess R) :
    respond guess correct true =
      .ok (respondMessage guess correct, respondFlow guess correct) ∧
    (respondFlow guess correct = .Break ↔ guess.value = correct.value) ∧
    (respondFlow guess correct = .Continue ↔ ¬(guess.value = correct.value)) ∧
    (respondMessage guess correct = magenta "\n\x7bguess\x7d is too high! 🥵" ↔
      correct.value < guess.value) ∧
    (respondMessage guess correct = cyan "\n\x7bguess\x7d is too low! 🥶" ↔
      guess.value < correct.value) ∧
    (respondMessage guess correct = (green "\nYou win! 😊🏖").bold ↔
      guess.value = correct.value) := by
  have hb := respondFlow_break_iff guess correct
  refine ⟨rfl, hb, ?_, ?_, ?_, ?_⟩
  · rcases hf : respondFlow guess correct with _ | _ <;> rw [hf] at hb <;> simp_all
  · constructor
    · intro h
      rcases lt_trichotomy guess.value correct.value with hlt | heq | hgt
      · rw [respondMessage_of_lt _ _ hlt] at h
        exact absurd h (by decide)
      · rw [respondMessage_of_eq _ _ heq] at h
        exact absurd h (by decide)
      · exact hgt
    · exact respondMessage_of_gt _ _
  · constructor
    · intro h
      rcases lt_trichotomy guess.value correct.value with hlt | heq | hgt
      · exact hlt
      · rw [respondMessage_of_eq _ _ heq] at h
        exact absurd h (by decide)
      · rw [respondMessage_of_gt _ _ hgt] at h
        exact absurd h (by decide)
    · exact respondMessage_of_lt _ _
  · constructor
    · intro h
      rcases lt_trichotomy guess.value correct.value with hlt | heq | hgt
      · rw [respondMessage_of_lt _ _ hlt] at h
        exact absurd h (by decide)
      · exact heq
      · rw [respondMessage_of_gt _ _ hgt] at h
        exact absurd h (by decide)
    · exact respondMessage_of_eq _ _

/-- C3: Each single call to the input loop returns exactly one validated
guess, no matter how many (`k`) invalid read/parse/validate sub-attempts occur
inside it; every failed sub-attempt writes the error message describing the
valid range and repeats from the prompt.  The caller observes a single
returned value per call for every `k`, so invalid input never changes the
attempt count the caller decrements (once per call). -/
theorem input_returns_exactly_one_guess (R : RangeInclusive) (p : ColoredString)
    (env : IOEnv) (k fuel : Nat) (g : Guess R)
    (hfail : ∀ n, n < k → attemptResult R env n = none)
    (hwr : ∀ n, n < k → env.errWriteOk n = true)
    (hok : attemptResult R env k = some g) (hfuel : k < fuel) :
    input R p env fuel =
      (.ok g k,
       List.flatten (List.replicate k
         [.promptWrite p, .errorWrite (errorMessage R)]) ++ [.promptWrite p]) := by
  have h := inputGo_run R p env k fuel 0 g
    (fun m hm => by simpa using hfail m hm)
    (fun m hm => by simpa using hwr m hm)
    (by simpa using hok) hfuel
  simpa [input] using h

/-- Witness for C3: range `[0, 50]`, first read is the invalid text `"abc"`
(one failed sub-attempt, one error write), second read is `"50"`; the call
returns exactly one validated guess. -/
theorem input_returns_exactly_one_guess_witness :
    input ⟨0, 50⟩ (clear "p")
        ⟨fun _ => true, fun n => if n = 0 then .ok "abc" else .ok "50",
         fun _ => true⟩ 3 =
      (.ok ⟨50⟩ 1,
       List.flatten (List.replicate 1
         [.promptWrite (clear "p"), .errorWrite (errorMessage ⟨0, 50⟩)])
         ++ [.promptWrite (clear "p")]) :=
  input_returns_exactly_one_guess ⟨0, 50⟩ (clear "p") _ 1 3 ⟨50⟩
    (fun n hn => by
      have h0 : n = 0 := by omega
      subst h0
      decide)
    (fun n hn => rfl)
    (by decide) (by omega)

/-- C4: Construction and the input loop only ever yield instances satisfying
`low <= value <= high`.  In the source, `Guess::new` is the sole constructor
(the field is private and no other code builds the struct); `respond` and the
derived `Copy`/comparisons never mutate a `value`, which the pure embedding
reflects by having no mutating operation at all. -/
theorem guess_range_invariant (R : RangeInclusive) :
    (∀ (v : Int) (g : Guess R), Guess.new R v = .ok g →
        R.start ≤ g.value ∧ g.value ≤ R.end_) ∧
    (∀ (p : ColoredString) (env : IOEnv) (fuel k : Nat) (g : Guess R),
        (input R p env fuel).1 = .ok g k →
        R.start ≤ g.value ∧ g.value ≤ R.end_) := by
  refine ⟨fun v g h => ?_, fun p env fuel k g h => ?_⟩
  · obtain ⟨hval, hlo, hhi⟩ := new_ok_inv R v g h
    rw [hval]
    exact ⟨hlo, hhi⟩
  · exact inputGo_ok_inv R p env fuel 0 k g h

/-- Witness for C4: a constructed guess and an input-loop guess in `[0, 10]`
both satisfy the invariant. -/
theorem guess_range_invariant_witness :
    ((0 : Int) ≤ 5 ∧ (5 : Int) ≤ 10) ∧ ((0 : Int) ≤ 7 ∧ (7 : Int) ≤ 10) :=
  ⟨(guess_range_invariant ⟨0, 10⟩).1 5 ⟨5⟩ (by decide),
   (guess_range_invariant ⟨0, 10⟩).2 (clear "p")
     ⟨fun _ => true, fun _ => .ok "7", fun _ => true⟩ 1 0 ⟨7⟩ (by decide)⟩

/-- C5 is false as stated: with an output sink whose flush fails on the first
iteration (`flushOk 0 = false`) but which accepts the error-message write, the
`input` call does not abort — the failed flush takes the same recoverable
`else` branch as malformed input, writes the error, re-prompts, and returns a
validated guess on the next iteration.  So a failed flush is not treated as
fatal by the code. -/
theorem flush_failure_is_recovered :
    (input ⟨0, 10⟩ (clear "p")
        ⟨fun n => decide (n ≠ 0), fun _ => .ok "5", fun _ => true⟩ 2).1 =
      .ok ⟨5⟩ 1 ∧
    (input ⟨0, 10⟩ (clear "p")
        ⟨fun n => decide (n ≠ 0), fun _ => .ok "5", fun _ => true⟩ 2).1 ≠
      .panic := by decide

/-- C5 (amended): malformed input and a failed flush are both recovered
locally by re-prompting (provided the error-message write succeeds); the
failures treated as fatal are those of `write_all`: if the error-message
write in the input loop fails, the call panics (`"Error erroring..."`), and
if the response write in `respond` fails, it panics with the diagnostic
`"Error outputting response."`. -/
theorem write_all_failure_is_fatal (R : RangeInclusive) (p : ColoredString)
    (env : IOEnv) (fuel : Nat) (g c q : Guess R) :
    (attemptResult R env 0 = none → env.errWriteOk 0 = false → 0 < fuel →
      (input R p env fuel).1 = .panic) ∧
    respond g c false = .error "Error outputting response." ∧
    (env.flushOk 0 = false → env.errWriteOk 0 = true →
      attemptResult R env 1 = some q → 1 < fuel →
      (input R p env fuel).1 = .ok q 1) := by
  refine ⟨fun h0 hw hfuel => ?_, rfl, fun hfl hw h1 hfuel => ?_⟩
  · obtain ⟨f, rfl⟩ : ∃ f, fuel = f + 1 := ⟨fuel - 1, by omega⟩
    unfold input inputGo
    simp [h0, hw]
  · have h0 : attemptResult R env 0 = none := by
      unfold attemptResult
      simp [hfl]
    have h := inputGo_run R p env 1 fuel 0 q
      (fun m hm => by
        have hm0 : m = 0 := by omega
        subst hm0
        simpa using h0)
      (fun m hm => by
        have hm0 : m = 0 := by omega
        subst hm0
        simpa using hw)
      (by simpa using h1) hfuel
    unfold input
    rw [h]

/-- Witness for C5 (amended): a sink that rejects the error write makes the
call panic; `respond` with a failing write panics; a failed flush with a
working error write recovers. -/
theorem write_all_failure_is_fatal_witness :
    (input ⟨0, 10⟩ (clear "p")
        ⟨fun _ => true, fun _ => .err, fun _ => false⟩ 1).1 = .panic ∧
    respond (⟨3⟩ : Guess ⟨0, 10⟩) ⟨4⟩ false =
      .error "Error outputting response." ∧
    (input ⟨0, 10⟩ (clear "p")
        ⟨fun n => decide (n ≠ 0), fun _ => .ok "5", fun _ => true⟩ 2).1 =
      .ok ⟨5⟩ 1 :=
  ⟨(write_all_failure_is_fatal ⟨0, 10⟩ (clear "p")
      ⟨fun _ => true, fun _ => .err, fun _ => false⟩ 1 ⟨3⟩ ⟨4⟩ ⟨5⟩).1
      (by decide) rfl (by omega),
   (write_all_failure_is_fatal ⟨0, 10⟩ (clear "p")
      ⟨fun _ => true, fun _ => .err, fun _ => false⟩ 1 ⟨3⟩ ⟨4⟩ ⟨5⟩).2.1,
   (write_all_failure_is_fatal ⟨0, 10⟩ (clear "p")
      ⟨fun n => decide (n ≠ 0), fun _ => .ok "5", fun _ => true⟩ 2 ⟨3⟩ ⟨4⟩ ⟨5⟩).2.2
      rfl rfl (by decide) (by omega)⟩

/-- C6: With the compiled-in attempt budget of 10 and range 0 through 1024
inclusive, if no guess ever equals the secret the driver performs exactly 10
input/respond cycles and then reports the loss; if the guess of some cycle
equals the secret, the driver stops at that cycle. -/
theorem driver_attempt_budget (correct : Guess GUESS_RANGE)
    (guesses : Nat → Guess GUESS_RANGE) :
    GUESS_RANGE = ⟨0, 1024⟩ ∧ ATTEMPTS_ALLOWED = 10 ∧
    ((∀ k, k < 10 → (guesses k).value ≠ correct.value) →
      mainGame correct guesses = .lost 10) ∧
    (∀ j, j < 10 → (∀ k, k < j → (guesses k).value ≠ correct.value) →
      (guesses j).value = correct.value →
      mainGame correct guesses = .won (j + 1)) := by
  refine ⟨rfl, rfl, fun h => ?_, fun j hj hne heq => ?_⟩
  · have h10 := mainLoop_lost correct guesses 10 0
      (fun m hm => by simpa using h m hm)
    show mainLoop correct guesses 10 0 = .lost 10
    simpa using h10
  · have hwin := mainLoop_won correct guesses j 10 0
      (fun m hm => by simpa using hne m hm) (by simpa using heq) hj
    show mainLoop correct guesses 10 0 = .won (j + 1)
    simpa using hwin

/-- Witness for C6: secret 100; all guesses 0 loses after exactly 10 cycles,
and a correct guess at the fourth cycle wins at that cycle (spec scenario 6). -/
theorem driver_attempt_budget_witness :
    mainGame ⟨100⟩ (fun _ => ⟨0⟩) = .lost 10 ∧
    mainGame ⟨100⟩ (fun k => if k = 3 then ⟨100⟩ else ⟨0⟩) = .won 4 :=
  ⟨(driver_attempt_budget ⟨100⟩ (fun _ => ⟨0⟩)).2.2.1 (fun k hk => by decide),
   (driver_attempt_budget ⟨100⟩ (fun k => if k = 3 then ⟨100⟩ else ⟨0⟩)).2.2.2
     3 (by omega) (fun k hk => by interval_cases k <;> decide) (by decide)⟩

/-- C7 is false as stated: the claim quantifies over every inclusive range
`[lo, hi]` whose bounds keep `lo-1` and `hi+1` inside `i32`, but for the empty
inclusive range `[1, 0]` (a legal `RangeInclusive` in Rust, `1..=0`)
constructing at exactly `lo = 1` fails instead of succeeding. -/
theorem boundary_claim_fails_on_empty_range :
    i32Min < 1 ∧ (0 : Int) < i32Max ∧ Guess.new ⟨1, 0⟩ 1 = .error 1 := by
  decide

/-- C7 (amended): for every nonempty inclusive range `[lo, hi]` (`lo ≤ hi`,
with `lo` above the `i32` minimum and `hi` below the `i32` maximum so that
`lo-1` and `hi+1` exist), constructing at exactly `lo` and at exactly `hi`
succeeds, while constructing at `lo-1` and at `hi+1` fails. -/
theorem boundary_construction (lo hi : Int) (hle : lo ≤ hi)
    (hlo : i32Min < lo) (hhi : hi < i32Max) :
    Guess.new ⟨lo, hi⟩ lo = .ok ⟨lo⟩ ∧
    Guess.new ⟨lo, hi⟩ hi = .ok ⟨hi⟩ ∧
    Guess.new ⟨lo, hi⟩ (lo - 1) = .error (lo - 1) ∧
    Guess.new ⟨lo, hi⟩ (hi + 1) = .error (hi + 1) :=
  ⟨new_ok_of_in_range _ _ (by show lo ≤ lo ∧ lo ≤ hi; omega),
   new_ok_of_in_range _ _ (by show lo ≤ hi ∧ hi ≤ hi; omega),
   new_error_of_out_of_range _ _ (by show ¬(lo ≤ lo - 1 ∧ lo - 1 ≤ hi); omega),
   new_error_of_out_of_range _ _ (by show ¬(lo ≤ hi + 1 ∧ hi + 1 ≤ hi); omega)⟩

/-- Witness for C7 (amended) at the range `[0, 10]`. -/
theorem boundary_construction_witness :
    Guess.new ⟨0, 10⟩ 0 = .ok ⟨0⟩ ∧ Guess.new ⟨0, 10⟩ 10 = .ok ⟨10⟩ ∧
    Guess.new ⟨0, 10⟩ (0 - 1) = .error (0 - 1) ∧
    Guess.new ⟨0, 10⟩ (10 + 1) = .error (10 + 1) :=
  boundary_construction 0 10 (by decide) (by decide) (by decide)

/-- C8: When the input source provides valid text, the value returned by the
input loop is the trimmed, parsed integer of that text, validated through
`Guess::new`: the returned instance is exactly the one `Guess::new` built
from the parsed value. -/
theorem input_returns_parsed_value (R : RangeInclusive) (p : ColoredString)
    (env : IOEnv) (s : String) (v : Int) (g : Guess R) (fuel : Nat)
    (hflush : env.flushOk 0 = true)
    (hread : env.readResult 0 = .ok s)
    (hparse : parseI32 (strTrim s) = some v)
    (hnew : Guess.new R v = .ok g)
    (hfuel : 0 < fuel) :
    (input R p env fuel).1 = .ok g 0 ∧ g.value = v := by
  have hA : attemptResult R env 0 = some g :=
    (attemptResult_eq_some_iff R env 0 g).2 ⟨hflush, s, v, hread, hparse, hnew⟩
  have h := inputGo_run R p env 0 fuel 0 g
    (fun m hm => absurd hm (by omega))
    (fun m hm => absurd hm (by omega))
    (by simpa using hA) hfuel
  refine ⟨?_, (new_ok_inv R v g hnew).1⟩
  unfold input
  rw [h]

/-- Witness for C8, spec scenario 5: the input stream provides `"50"` with
range `[0, 50]`; the loop returns the value constructed from 50. -/
theorem input_returns_parsed_value_witness :
    (input ⟨0, 50⟩ (clear "p")
        ⟨fun _ => true, fun _ => .ok "50", fun _ => true⟩ 1).1 =
      .ok ⟨50⟩ 0 ∧ (⟨50⟩ : Guess ⟨0, 50⟩).value = 50 :=
  input_returns_parsed_value ⟨0, 50⟩ (clear "p") _ "50" 50 ⟨50⟩ 1 rfl rfl
    (by decide) (by decide) (by omega)

/-- C9: Two same-range `Guess` instances are equal iff their underlying
integers are equal, and the derived ordering coincides with the ordering of
the underlying integers.  Instances are immutable: the source defines no
mutating operation on the struct, which the pure embedding reflects — every
operation consumes and produces values, never modifying one. -/
theorem guess_eq_and_ordering (R : RangeInclusive) (a b : Guess R) :
    (a = b ↔ a.value = b.value) ∧
    (Guess.cmp a b = .eq ↔ a.value = b.value) ∧
    (Guess.cmp a b = .lt ↔ a.value < b.value) ∧
    (Guess.cmp a b = .gt ↔ b.value < a.value) := by
  refine ⟨?_, i32Compare_eq_eq _ _, i32Compare_eq_lt _ _, i32Compare_eq_gt _ _⟩
  constructor
  · intro h
    rw [h]
  · intro h
    cases a
    cases b
    simpa using h

/-- C10: The "too high" and "too low" messages are fixed strings independent
of the guess's numeric value — the source passes plain string literals, not
`format!` templates, to `write_all`, so the characters `{guess}` appear
literally (note `\x7b` / `\x7d` denote the literal braces) and two runs with
different too-high (or too-low) guesses write identical output. -/
theorem respond_message_is_fixed_literal (R : RangeInclusive)
    (g1 c1 g2 c2 : Guess R) :
    (c1.value < g1.value → c2.value < g2.value →
      respondMessage g1 c1 = respondMessage g2 c2 ∧
      (respondMessage g1 c1).text = "\n\x7bguess\x7d is too high! 🥵") ∧
    (g1.value < c1.value → g2.value < c2.value →
      respondMessage g1 c1 = respondMessage g2 c2 ∧
      (respondMessage g1 c1).text = "\n\x7bguess\x7d is too low! 🥶") ∧
    (c1.value < g1.value →
      ∃ pre post, (respondMessage g1 c1).text = pre ++ "\x7bguess\x7d" ++ post) ∧
    (g1.value < c1.value →
      ∃ pre post, (respondMessage g1 c1).text = pre ++ "\x7bguess\x7d" ++ post) := by
  refine ⟨fun h1 h2 => ?_, fun h1 h2 => ?_, fun h1 => ?_, fun h1 => ?_⟩
  · rw [respondMessage_of_gt _ _ h1, respondMessage_of_gt _ _ h2]
    exact ⟨rfl, rfl⟩
  · rw [respondMessage_of_lt _ _ h1, respondMessage_of_lt _ _ h2]
    exact ⟨rfl, rfl⟩
  · rw [respondMessage_of_gt _ _ h1]
    exact ⟨"\n", " is too high! 🥵", by decide⟩
  · rw [respondMessage_of_lt _ _ h1]
    exact ⟨"\n", " is too low! 🥶", by decide⟩

/-- Witness for C10: two different too-high guesses (40 and 30 against secret
20 in range `[0, 50]`) produce identical messages whose text contains the
literal characters `{guess}`. -/
theorem respond_message_is_fixed_literal_witness :
    (respondMessage (⟨40⟩ : Guess ⟨0, 50⟩) ⟨20⟩ =
        respondMessage (⟨30⟩ : Guess ⟨0, 50⟩) ⟨20⟩ ∧
      (respondMessage (⟨40⟩ : Guess ⟨0, 50⟩) ⟨20⟩).text =
        "\n\x7bguess\x7d is too high! 🥵") ∧
    ∃ pre post, (respondMessage (⟨40⟩ : Guess ⟨0, 50⟩) ⟨20⟩).text =
      pre ++ "\x7bguess\x7d" ++ post :=
  ⟨(respond_message_is_fixed_literal ⟨0, 50⟩ ⟨40⟩ ⟨20⟩ ⟨30⟩ ⟨20⟩).1
      (by decide) (by decide),
   (respond_message_is_fixed_literal ⟨0, 50⟩ ⟨40⟩ ⟨20⟩ ⟨30⟩ ⟨20⟩).2.2.1
      (by decide)⟩

end GuessingGame
